import Mathlib

/-!
Shallow embedding of the 2D-platformer game client (`src/main.cpp`).

Conventions used throughout:
* `sf::Time` stores a signed 64-bit microsecond count, so all timers are
  modelled as `Int` microseconds.  `sf::seconds(0.1f)` evaluates to exactly
  100000 microseconds (the float product `0.1f * 1e6` rounds to `100000.0f`
  and the chrono cast truncates), and `sf::seconds(0.18f)` to 180000.
* world coordinates (`float x, y`) are modelled as rationals `ℚ`; none of the
  verified properties depends on float rounding (the deltas involved are
  5.0, 100.0 and 0.0 against a 0.1 threshold).
* the parallel `std::map<uint32_t, ...>` registries are modelled as functions
  `Nat → Option α` (a key is present iff the value is `some`).
-/

namespace Platform2D

/-- Animation state enum of the client (`PlayerAnimState` in main.cpp). -/
inductive PlayerAnimState where
  | Stand
  | Walk
  | Jump
  | Stance
deriving DecidableEq, Repr

/-- Animation descriptor (`AnimationData` in main.cpp): start index, frame
count, and per-frame duration in microseconds. -/
structure AnimationData where
  startFrameIndex : Int
  frameCount : Nat
  timePerFrame : Int
deriving DecidableEq, Repr

/-- Static animation table `animData` from main.cpp.  Per-frame durations
0.18f s and 0.1f s become 180000 and 100000 microseconds respectively. -/
def animData : PlayerAnimState → AnimationData
  | .Stand => ⟨64, 1, 180000⟩
  | .Walk => ⟨32, 8, 100000⟩
  | .Jump => ⟨42, 6, 100000⟩
  | .Stance => ⟨0, 4, 180000⟩

/-- One evaluation of the client's frame-advance block (main.cpp lines
450-463 for the local player, 479-488 for remotes): a single `if` test.
When the accumulated timer has reached the descriptor's per-frame duration
it is decremented once and the frame index advances once, modulo the frame
count; otherwise nothing happens. -/
def advanceOnce (d : AnimationData) (timer : Int) (frame : Nat) : Int × Nat :=
  if d.timePerFrame ≤ timer then (timer - d.timePerFrame, (frame + 1) % d.frameCount)
  else (timer, frame)

/-- One whole per-frame animation update for an entity: elapsed time `dt` is
accumulated into the timer (`animTimer += dt`, main.cpp line 146 / 154) and
then the advance block runs once. -/
def frameUpdate (d : AnimationData) (st : Int × Nat) (dt : Int) : Int × Nat :=
  advanceOnce d (st.1 + dt) st.2

/-- Per-frame animation variables of the local player (`currentAnimState`,
`currentFrame`, `animTimer`, `stateChangeCooldownTimer` in main.cpp). -/
structure LocalAnim where
  currentAnimState : PlayerAnimState
  currentFrame : Nat
  animTimer : Int
  stateChangeCooldownTimer : Int
deriving DecidableEq, Repr

/-- Timer bookkeeping at the top of the game loop (main.cpp lines 145-150):
the animation timer accumulates `dt` and the cooldown timer is decremented
by `dt` only while it is strictly positive. -/
def tickTimers (dt : Int) (s : LocalAnim) : LocalAnim :=
  { s with
    animTimer := s.animTimer + dt
    stateChangeCooldownTimer :=
      if 0 < s.stateChangeCooldownTimer then s.stateChangeCooldownTimer - dt
      else s.stateChangeCooldownTimer }

/-- Target-state resolution for the local player (main.cpp lines 420-432):
airborne wins, then held directional input, else Stand. -/
def localTarget (isOnGround left right : Bool) : PlayerAnimState :=
  if isOnGround = false then .Jump
  else if left || right then .Walk
  else .Stand

/-- Local state-transition block (main.cpp lines 434-447): the state changes
only when the target differs and the cooldown timer has expired; on a change
the frame index and frame timer reset to zero and the cooldown restarts at
`sf::seconds(0.1f)` = 100000 microseconds. -/
def localTransition (isOnGround left right : Bool) (s : LocalAnim) : LocalAnim :=
  let target := localTarget isOnGround left right
  if s.currentAnimState ≠ target ∧ s.stateChangeCooldownTimer ≤ 0 then
    { currentAnimState := target
      currentFrame := 0
      animTimer := 0
      stateChangeCooldownTimer := 100000 }
  else s

/-- Frame-advance block for the local player (main.cpp lines 450-463); the
`animData.count` guard always succeeds since the table is total. -/
def localAdvance (s : LocalAnim) : LocalAnim :=
  let d := animData s.currentAnimState
  let st := advanceOnce d s.animTimer s.currentFrame
  { s with animTimer := st.1, currentFrame := st.2 }

/-- One frame of the local player's animation pipeline in source order:
timer accumulation, then the transition block, then the advance block. -/
def localFrame (dt : Int) (isOnGround left right : Bool) (s : LocalAnim) : LocalAnim :=
  localAdvance (localTransition isOnGround left right (tickTimers dt s))

/-- Client map state (main.cpp lines 90-95): the tile grid, its dimensions
(C++ `int`s), the solid-tile render primitives (recorded by their `(x, y)`
tile coordinates; the actual shapes sit at `x*40, y*40` pixels), and the
loaded flag. -/
structure MapState where
  clientTileMap : List (List Int)
  clientMapWidth : Int
  clientMapHeight : Int
  mapShapes : List (Nat × Nat)
  mapLoaded : Bool
deriving DecidableEq, Repr

/-- Conversion performed by `static_cast<int>(width)` on a decoded `uint32`:
values below 2^31 = 2147483648 are unchanged, larger ones wrap to negatives
by subtracting 2^32 = 4294967296. -/
def int32ofU32 (n : Int) : Int :=
  if n < 2147483648 then n else n - 4294967296

/-- Semantics of `clientTileMap.resize(h, std::vector<int>(w))`: rows beyond
`h` are dropped, missing rows are appended as fresh all-zero rows of width
`w`; rows that survive keep their previous contents (and widths). -/
def resizeRows (rows : List (List Int)) (h w : Nat) : List (List Int) :=
  rows.take h ++ List.replicate (h - rows.length) (List.replicate w 0)

/-- Write `clientTileMap[y][x] = v` (an in-range write in every execution the
C++ reaches without undefined behaviour; out-of-range indices are a no-op
here). -/
def setTile (rows : List (List Int)) (y x : Nat) (v : Int) : List (List Int) :=
  rows.set y ((rows.getD y []).set x v)

/-- Read `clientTileMap[y][x]` back (used for the wall test right after the
write). -/
def getTile (rows : List (List Int)) (y x : Nat) : Int :=
  (rows.getD y []).getD x 0

/-- Inner/outer tile-reading loop of the MapData case (main.cpp lines
355-380): cells are visited in row-major order; each visit consumes one
field, writes the tile, and appends a render shape when the stored value is
1; running out of fields sets `parseOk = false` and breaks out of both
loops. -/
def mapContentLoop :
    List (Nat × Nat) → List Int → List (List Int) → List (Nat × Nat) →
    List (List Int) × List (Nat × Nat) × Bool
  | [], _, tm, shapes => (tm, shapes, true)
  | _ :: _, [], tm, shapes => (tm, shapes, false)
  | (y, x) :: rest, v :: fields, tm, shapes =>
    let tm' := setTile tm y x v
    let shapes' := if getTile tm' y x = 1 then shapes ++ [(x, y)] else shapes
    mapContentLoop rest fields tm' shapes'

/-- Row-major list of the cell coordinates the tile loop visits for stored
dimensions `h × w`. -/
def cellCoords (h w : Nat) : List (Nat × Nat) :=
  (List.range h).flatMap fun y => (List.range w).map fun x => (y, x)

/-- MapData branch of the dispatcher (main.cpp lines 344-401).  The packet
content is modelled as the list of integer fields that decode successfully
(a short packet is a short list).  If the two dimension fields are missing
the state is untouched; otherwise the dimensions are stored, the grid is
resized and the previous shapes are cleared BEFORE the tile contents are
parsed, and `mapLoaded` is set only when every tile decodes. -/
def mapDataStep (fields : List Int) (s : MapState) : MapState :=
  match fields with
  | w :: h :: rest =>
    let wI := int32ofU32 w
    let hI := int32ofU32 h
    let tm0 := resizeRows s.clientTileMap hI.toNat wI.toNat
    let r := mapContentLoop (cellCoords hI.toNat wI.toNat) rest tm0 []
    { clientTileMap := r.1
      clientMapWidth := wI
      clientMapHeight := hI
      mapShapes := r.2.1
      mapLoaded := if r.2.2 then true else s.mapLoaded }
  | _ => s

/-- Pointwise update of a registry map at one key. -/
def setF {α : Type} (f : Nat → Option α) (i : Nat) (v : Option α) : Nat → Option α :=
  fun j => if j = i then v else f j

/-- Absolute value as computed by `std::abs` on the positional delta. -/
def ratAbs (q : ℚ) : ℚ := if q < 0 then -q else q

/-- Client session state touched by the synchronization dispatcher: the local
player's identity, ground flag and sprite position, the five parallel
per-remote-entity maps (main.cpp lines 130-134; the sprite map is represented
by the sprite's position, the only sprite attribute the dispatcher reads),
and the map state. -/
structure ClientState where
  myPlayerId : Nat
  myIsOnGround : Bool
  playerPos : ℚ × ℚ
  otherPos : Nat → Option (ℚ × ℚ)
  otherAnim : Nat → Option PlayerAnimState
  otherFrame : Nat → Option Nat
  otherTimer : Nat → Option Int
  otherFacing : Nat → Option Bool
  mapState : MapState

/-- Creation-on-first-sighting block of the PlayerState case (main.cpp lines
242-252): an unseen id gets a fresh sprite (default position `(0, 0)`),
Stand state, frame 0, zero timer and right-facing default. -/
def ensureOther (s : ClientState) (id : Nat) : ClientState :=
  if (s.otherPos id).isSome then s
  else
    { s with
      otherPos := setF s.otherPos id (some ((0 : ℚ), (0 : ℚ)))
      otherAnim := setF s.otherAnim id (some .Stand)
      otherFrame := setF s.otherFrame id (some 0)
      otherTimer := setF s.otherTimer id (some 0)
      otherFacing := setF s.otherFacing id (some true) }

/-- Remainder of the PlayerState case for a remote entity (main.cpp lines
254-296), given the previous x coordinate `prevX` read from the (possibly
just created) sprite: position update, facing from the sign of the delta,
target state from the message's own ground flag and the delta against the
0.1 threshold, frame/timer reset on a state change, and the state write. -/
def remoteAfterCreate (s : ClientState) (id : Nat) (x y : ℚ) (isOnGround : Bool)
    (prevX : ℚ) : ClientState :=
  let s2 := { s with otherPos := setF s.otherPos id (some (x, y)) }
  let s3 :=
    if prevX < x then { s2 with otherFacing := setF s2.otherFacing id (some true) }
    else if x < prevX then { s2 with otherFacing := setF s2.otherFacing id (some false) }
    else s2
  let target : PlayerAnimState :=
    if isOnGround = false then .Jump
    else if (1 : ℚ) / 10 < ratAbs (x - prevX) then .Walk
    else .Stand
  let s4 :=
    if (s3.otherAnim id).getD .Stand ≠ target then
      { s3 with
        otherFrame := setF s3.otherFrame id (some 0)
        otherTimer := setF s3.otherTimer id (some 0) }
    else s3
  { s4 with otherAnim := setF s4.otherAnim id (some target) }

/-- Whole remote-entity branch of the PlayerState case (main.cpp lines
239-297): ensure the record exists, read the previous x from the sprite,
then apply the update. -/
def handleRemoteState (s : ClientState) (id : Nat) (x y : ℚ) (isOnGround : Bool) :
    ClientState :=
  let s1 := ensureOther s id
  remoteAfterCreate s1 id x y isOnGround (((s1.otherPos id).getD (0, 0)).1)

/-- Decoded inbound messages as seen by the dispatcher's switch.  MapData
carries the raw list of integer fields that decode from its content (so a
short packet is a short list). -/
inductive Msg where
  | welcome (id : Nat)
  | playerState (id : Nat) (x y : ℚ) (onGround : Bool)
  | playerJoined (id : Nat) (x y : ℚ) (onGround : Bool)
  | playerLeft (id : Nat)
  | mapData (fields : List Int)

/-- Synchronization dispatcher (main.cpp lines 210-405): one decoded message
mutates the session state.  Welcome overwrites the local id; PlayerState is
filtered by identity; PlayerJoined creates a record only for an unseen
non-local id, seeding the state from the message's ground flag; PlayerLeft
erases all five parallel entries only when the sprite was present. -/
def step (s : ClientState) (m : Msg) : ClientState :=
  match m with
  | .welcome id => { s with myPlayerId := id }
  | .playerState id x y g =>
    if id = s.myPlayerId then { s with myIsOnGround := g, playerPos := (x, y) }
    else handleRemoteState s id x y g
  | .playerJoined id x y g =>
    if id ≠ s.myPlayerId ∧ (s.otherPos id).isSome = false then
      { s with
        otherPos := setF s.otherPos id (some (x, y))
        otherAnim := setF s.otherAnim id (some (if g then .Stand else .Jump))
        otherFrame := setF s.otherFrame id (some 0)
        otherTimer := setF s.otherTimer id (some 0)
        otherFacing := setF s.otherFacing id (some true) }
    else s
  | .playerLeft id =>
    if id ≠ s.myPlayerId ∧ (s.otherPos id).isSome then
      { s with
        otherPos := setF s.otherPos id none
        otherAnim := setF s.otherAnim id none
        otherFrame := setF s.otherFrame id none
        otherTimer := setF s.otherTimer id none
        otherFacing := setF s.otherFacing id none }
    else s
  | .mapData fields => { s with mapState := mapDataStep fields s.mapState }

/-- Processing of a whole drained inbound sequence, in arrival order. -/
def processAll (s : ClientState) (msgs : List Msg) : ClientState :=
  msgs.foldl step s

/-!
Wire codec.  `sf::Packet` writes integers in network byte order (big
endian), booleans as a single 0/1 byte, and floats as the four raw bytes of
their IEEE bit pattern (platform little endian, no swap).  Bytes are `Nat`s
below 256; float values are carried as their 32-bit patterns, since the
codec only copies them.

Modelled from the spec: only the PlayerInput body encoder and the tag
encoder live in `src/main.cpp` (lines 59-80); the field layouts of the five
server-originated messages are taken from the client's decode sequences and
from spec section 4.1, and the byte-level primitives from the SFML packet
contract the spec's section 6 describes.
-/

/-- Big-endian 4-byte encoding of a 32-bit integer value. -/
def u32be (n : Nat) : List Nat :=
  [n / 16777216 % 256, n / 65536 % 256, n / 256 % 256, n % 256]

/-- Little-endian 4-byte copy of a float's 32-bit pattern. -/
def f32bytes (n : Nat) : List Nat :=
  [n % 256, n / 256 % 256, n / 65536 % 256, n / 16777216 % 256]

/-- Boolean encoding: one byte holding `static_cast<uint8_t>(b)`. -/
def boolByte (b : Bool) : List Nat :=
  [if b then 1 else 0]

/-- In-memory view of one wire message of each of the six tags.  Float
fields are their 32-bit patterns; MapData carries its tile codes as 32-bit
patterns too. -/
inductive WireMsg where
  | welcome (id : Nat)
  | playerState (id xbits ybits : Nat) (onGround : Bool)
  | playerInput (up down left right jump : Bool)
  | playerJoined (id xbits ybits : Nat) (onGround : Bool)
  | playerLeft (id : Nat)
  | mapData (w h : Nat) (tiles : List Nat)
deriving DecidableEq, Repr

/-- Encoder: the tag byte (enum values 0-5 in declaration order) followed by
the tag's fixed field layout. -/
def encodeWire : WireMsg → List Nat
  | .welcome id => 0 :: u32be id
  | .playerState id x y g => 1 :: (u32be id ++ f32bytes x ++ f32bytes y ++ boolByte g)
  | .playerInput u d l r j =>
    2 :: (boolByte u ++ boolByte d ++ boolByte l ++ boolByte r ++ boolByte j)
  | .playerJoined id x y g => 3 :: (u32be id ++ f32bytes x ++ f32bytes y ++ boolByte g)
  | .playerLeft id => 4 :: u32be id
  | .mapData w h tiles => 5 :: (u32be w ++ u32be h ++ tiles.flatMap u32be)

/-- Read a big-endian 32-bit integer; fails when fewer than 4 bytes remain. -/
def readU32 : List Nat → Option (Nat × List Nat)
  | b0 :: b1 :: b2 :: b3 :: rest => some (((b0 * 256 + b1) * 256 + b2) * 256 + b3, rest)
  | _ => none

/-- Read a float's 32-bit pattern (raw little-endian copy). -/
def readF32 : List Nat → Option (Nat × List Nat)
  | b0 :: b1 :: b2 :: b3 :: rest => some (b0 + 256 * (b1 + 256 * (b2 + 256 * b3)), rest)
  | _ => none

/-- Read a boolean: one byte, nonzero meaning true (`sf::Packet`'s decode). -/
def readBool : List Nat → Option (Bool × List Nat)
  | [] => none
  | b :: rest => some (b != 0, rest)

/-- Read `n` consecutive 32-bit tile codes, as the client's nested tile loop
does. -/
def readTiles : Nat → List Nat → Option (List Nat × List Nat)
  | 0, bs => some ([], bs)
  | n + 1, bs =>
    Option.bind (readU32 bs) fun t =>
      Option.bind (readTiles n t.2) fun ts => some (t.1 :: ts.1, ts.2)

/-- Read the MapData tile block for decoded dimensions `w` and `h`: the
client casts both to `int` and loops height-outer, width-inner, so the read
count is the product of the two int-cast dimensions. -/
def readTilesDims (w h : Nat) (bs : List Nat) : Option (List Nat × List Nat) :=
  readTiles ((int32ofU32 h).toNat * (int32ofU32 w).toNat) bs

/-- Decoder: reads the tag byte and the declared field layout of that tag,
failing (`none`) when the bytes run out or the tag byte is not one of the
six known values. -/
def decodeWire : List Nat → Option (WireMsg × List Nat)
  | 0 :: bs => Option.bind (readU32 bs) fun p => some (.welcome p.1, p.2)
  | 1 :: bs =>
    Option.bind (readU32 bs) fun p =>
      Option.bind (readF32 p.2) fun q =>
        Option.bind (readF32 q.2) fun r =>
          Option.bind (readBool r.2) fun t =>
            some (.playerState p.1 q.1 r.1 t.1, t.2)
  | 2 :: bs =>
    Option.bind (readBool bs) fun p =>
      Option.bind (readBool p.2) fun q =>
        Option.bind (readBool q.2) fun r =>
          Option.bind (readBool r.2) fun t =>
            Option.bind (readBool t.2) fun v =>
              some (.playerInput p.1 q.1 r.1 t.1 v.1, v.2)
  | 3 :: bs =>
    Option.bind (readU32 bs) fun p =>
      Option.bind (readF32 p.2) fun q =>
        Option.bind (readF32 q.2) fun r =>
          Option.bind (readBool r.2) fun t =>
            some (.playerJoined p.1 q.1 r.1 t.1, t.2)
  | 4 :: bs => Option.bind (readU32 bs) fun p => some (.playerLeft p.1, p.2)
  | 5 :: bs =>
    Option.bind (readU32 bs) fun p =>
      Option.bind (readU32 p.2) fun q =>
        Option.bind (readTilesDims p.1 q.1 q.2) fun r =>
          some (.mapData p.1 q.1 r.1, r.2)
  | _ => none

/-- Well-formed in-memory messages: 32-bit fields are in range, MapData
carries exactly `width × height` tiles, and its dimensions fit a C++ `int`
(larger dimensions wrap negative under the client's cast and are never
produced by the server). -/
def WFwire : WireMsg → Prop
  | .welcome id => id < 2 ^ 32
  | .playerState id x y _ => id < 2 ^ 32 ∧ x < 2 ^ 32 ∧ y < 2 ^ 32
  | .playerInput _ _ _ _ _ => True
  | .playerJoined id x y _ => id < 2 ^ 32 ∧ x < 2 ^ 32 ∧ y < 2 ^ 32
  | .playerLeft id => id < 2 ^ 32
  | .mapData w h tiles =>
    w < 2 ^ 31 ∧ h < 2 ^ 31 ∧ tiles.length = w * h ∧ ∀ t ∈ tiles, t < 2 ^ 32

/-- View of a valid PlayerState message as its decoded field tuple
(id, x, y, onGround). -/
def toStateMsg (m : Nat × ℚ × ℚ × Bool) : Msg :=
  .playerState m.1 m.2.1 m.2.2.1 m.2.2.2

/-- Alignment invariant of the five parallel per-remote-entity maps: every
id is present in all five or in none. -/
def RegAligned (s : ClientState) : Prop :=
  ∀ id, (s.otherPos id).isSome = (s.otherAnim id).isSome ∧
    (s.otherPos id).isSome = (s.otherFrame id).isSome ∧
    (s.otherPos id).isSome = (s.otherTimer id).isSome ∧
    (s.otherPos id).isSome = (s.otherFacing id).isSome

/-- Previously loaded 1×1 map whose single tile is a wall: one render shape,
`mapLoaded = true`. -/
def mapBefore : MapState :=
  { clientTileMap := [[1]], clientMapWidth := 1, clientMapHeight := 1,
    mapShapes := [(0, 0)], mapLoaded := true }

/-- Fresh client session right after startup: invalid-as-yet local id 0 for
concreteness, empty registry, no map. -/
def initState : ClientState :=
  { myPlayerId := 0
    myIsOnGround := true
    playerPos := (0, 0)
    otherPos := fun _ => none
    otherAnim := fun _ => none
    otherFrame := fun _ => none
    otherTimer := fun _ => none
    otherFacing := fun _ => none
    mapState :=
      { clientTileMap := [], clientMapWidth := 0, clientMapHeight := 0,
        mapShapes := [], mapLoaded := false } }

/-!
Theorems.
-/

/-- Helper: reading the key just written. -/
lemma setF_same {α : Type} (f : Nat → Option α) (i : Nat) (v : Option α) :
    setF f i v i = v := by
  simp [setF]

/-- Helper: reading any other key. -/
lemma setF_other {α : Type} (f : Nat → Option α) (i j : Nat) (v : Option α) (h : j ≠ i) :
    setF f i v j = f j := by
  simp [setF, h]

/-- Helper: the remote PlayerState branch never touches the local player's
scalar fields or the map. -/
lemma handleRemoteState_scalars (s : ClientState) (id : Nat) (x y : ℚ) (g : Bool) :
    (handleRemoteState s id x y g).myPlayerId = s.myPlayerId ∧
    (handleRemoteState s id x y g).myIsOnGround = s.myIsOnGround ∧
    (handleRemoteState s id x y g).playerPos = s.playerPos ∧
    (handleRemoteState s id x y g).mapState = s.mapState := by
  simp only [handleRemoteState, remoteAfterCreate, ensureOther]
  split_ifs <;> simp

/-- Helper: the remote PlayerState branch leaves every other id's five
registry entries unchanged. -/
lemma handleRemoteState_ne (s : ClientState) (id j : Nat) (x y : ℚ) (g : Bool)
    (h : j ≠ id) :
    (handleRemoteState s id x y g).otherPos j = s.otherPos j ∧
    (handleRemoteState s id x y g).otherAnim j = s.otherAnim j ∧
    (handleRemoteState s id x y g).otherFrame j = s.otherFrame j ∧
    (handleRemoteState s id x y g).otherTimer j = s.otherTimer j ∧
    (handleRemoteState s id x y g).otherFacing j = s.otherFacing j := by
  simp only [handleRemoteState, remoteAfterCreate, ensureOther]
  split_ifs <;> simp [setF, h]

/-- C7: a first PlayerJoined for an unseen remote id creates exactly one
registry record (all five entries at that id, nothing at any other id), and
a second PlayerJoined for the same id is a complete no-op: the state after
the duplicate equals the state after the first join, so the record's
position, animation state, frame, timer and facing are untouched. -/
theorem c7_duplicate_join_noop (s : ClientState) (id : Nat) (x y x2 y2 : ℚ) (g g2 : Bool)
    (hid : id ≠ s.myPlayerId) (habs : s.otherPos id = none) :
    step (step s (.playerJoined id x y g)) (.playerJoined id x2 y2 g2) =
      step s (.playerJoined id x y g) ∧
    (step s (.playerJoined id x y g)).otherPos id = some (x, y) ∧
    (step s (.playerJoined id x y g)).otherAnim id =
      some (if g then .Stand else .Jump) ∧
    (step s (.playerJoined id x y g)).otherFrame id = some 0 ∧
    (step s (.playerJoined id x y g)).otherTimer id = some 0 ∧
    (step s (.playerJoined id x y g)).otherFacing id = some true ∧
    (∀ j, j ≠ id →
      (step s (.playerJoined id x y g)).otherPos j = s.otherPos j ∧
      (step s (.playerJoined id x y g)).otherAnim j = s.otherAnim j ∧
      (step s (.playerJoined id x y g)).otherFrame j = s.otherFrame j ∧
      (step s (.playerJoined id x y g)).otherTimer j = s.otherTimer j ∧
      (step s (.playerJoined id x y g)).otherFacing j = s.otherFacing j) := by
  have h1 : step s (.playerJoined id x y g) =
      { s with
        otherPos := setF s.otherPos id (some (x, y))
        otherAnim := setF s.otherAnim id (some (if g then .Stand else .Jump))
        otherFrame := setF s.otherFrame id (some 0)
        otherTimer := setF s.otherTimer id (some 0)
        otherFacing := setF s.otherFacing id (some true) } := by
    simp [step, hid, habs]
  refine ⟨?_, ?_, ?_, ?_, ?_, ?_, fun j hj => ?_⟩
  · rw [h1]; simp [step, setF_same]
  · rw [h1]; simp [setF_same]
  · rw [h1]; simp [setF_same]
  · rw [h1]; simp [setF_same]
  · rw [h1]; simp [setF_same]
  · rw [h1]; simp [setF_same]
  · rw [h1]
    exact ⟨setF_other _ _ _ _ hj, setF_other _ _ _ _ hj, setF_other _ _ _ _ hj,
      setF_other _ _ _ _ hj, setF_other _ _ _ _ hj⟩

/-- C7 witness: joining id 7 twice on a fresh session creates one record and
the duplicate join is the identity. -/
theorem c7_duplicate_join_noop_witness :
    ((7 : Nat) ≠ initState.myPlayerId ∧ initState.otherPos 7 = none) ∧
    step (step initState (.playerJoined 7 3 4 true)) (.playerJoined 7 9 9 false) =
      step initState (.playerJoined 7 3 4 true) :=
  ⟨⟨by decide, rfl⟩,
    (c7_duplicate_join_noop initState 7 3 4 9 9 true false (by decide) rfl).1⟩

/-- Helper for C4: a registered remote whose x moved +5 with the message's
ground flag true ends in Walk facing right, for any session state. -/
lemma remote_walk_core (s : ClientState) (id : Nat) (px py x y : ℚ)
    (hid : id ≠ s.myPlayerId) (hpos : s.otherPos id = some (px, py)) (hx : x = px + 5) :
    (step s (.playerState id x y true)).otherAnim id = some .Walk ∧
    (step s (.playerState id x y true)).otherFacing id = some true := by
  have hsome : (s.otherPos id).isSome := by rw [hpos]; rfl
  have hens : ensureOther s id = s := by simp [ensureOther, hsome]
  have hlt : px < x := by rw [hx]; linarith
  have habs : (1 : ℚ) / 10 < ratAbs (x - px) := by
    rw [hx]
    simp [ratAbs]
    norm_num
  simp only [step, if_neg hid, handleRemoteState, hens, hpos, Option.getD_some]
  simp only [remoteAfterCreate, if_pos hlt, habs, if_true]
  norm_num
  split <;> simp [setF_same]

/-- C4: for a remote entity already in the registry, a PlayerState update
whose x exceeds the previous x by 5.0 with onGround = true makes its state
Walk and its facing right; the decision uses the ground flag decoded from
that entity's own message — the outcome is the same whatever the local
player's ground flag holds. -/
theorem c4_remote_walk_uses_own_ground (s : ClientState) (id : Nat) (px py x y : ℚ)
    (b : Bool) (hid : id ≠ s.myPlayerId) (hpos : s.otherPos id = some (px, py))
    (hx : x = px + 5) :
    ((step s (.playerState id x y true)).otherAnim id = some .Walk ∧
      (step s (.playerState id x y true)).otherFacing id = some true) ∧
    ((step { s with myIsOnGround := b } (.playerState id x y true)).otherAnim id =
        some .Walk ∧
      (step { s with myIsOnGround := b } (.playerState id x y true)).otherFacing id =
        some true) :=
  ⟨remote_walk_core s id px py x y hid hpos hx,
    remote_walk_core { s with myIsOnGround := b } id px py x y hid hpos hx⟩

/-- C4 witness: id 7 previously at x = 2 receives x = 7 (a +5 move) with
onGround = true and ends in Walk facing right, with either value of the
local ground flag. -/
theorem c4_remote_walk_witness :
    ((7 : Nat) ≠ (step initState (.playerJoined 7 2 4 true)).myPlayerId ∧
      (step initState (.playerJoined 7 2 4 true)).otherPos 7 = some (2, 4) ∧
      (7 : ℚ) = 2 + 5) ∧
    ((step (step initState (.playerJoined 7 2 4 true))
        (.playerState 7 7 4 true)).otherAnim 7 = some .Walk ∧
      (step (step initState (.playerJoined 7 2 4 true))
        (.playerState 7 7 4 true)).otherFacing 7 = some true) :=
  ⟨⟨by decide, by simp [step, initState, setF], by norm_num⟩,
    (c4_remote_walk_uses_own_ground (step initState (.playerJoined 7 2 4 true)) 7 2 4 7 4
      true (by decide) (by simp [step, initState, setF]) (by norm_num)).1⟩

/-- C3 (counterexample): the first PlayerState for an unseen remote id does
NOT always resolve to Stand when its onGround flag is true: the freshly
created sprite sits at the default position (0, 0), so the transition runs
with delta x - 0; at x = 100 the result is Walk. -/
theorem c3_first_state_not_stand_counterexample :
    (step initState (.playerState 7 100 0 true)).otherAnim 7 = some .Walk ∧
    (step initState (.playerState 7 100 0 true)).otherAnim 7 ≠ some .Stand := by
  have h : (step initState (.playerState 7 100 0 true)).otherAnim 7 = some .Walk := by
    norm_num [step, initState, handleRemoteState, ensureOther, remoteAfterCreate, setF,
      ratAbs]
  exact ⟨h, by rw [h]; simp⟩

/-- C3 (amended): a PlayerState for an unseen remote id creates the record
with Stand state, frame 0, zero timer and right-facing default, but the
remote transition then runs with the delta taken from the new sprite's
DEFAULT position (0, 0), not a zero delta: with onGround = true the
resulting state is Walk whenever the 0.1 threshold is exceeded by the
magnitude of x, and Stand only otherwise; facing flips left only for
negative x. -/
theorem c3_first_state_uses_default_origin (s : ClientState) (id : Nat) (x y : ℚ)
    (hid : id ≠ s.myPlayerId) (habs : s.otherPos id = none) :
    (step s (.playerState id x y true)).otherAnim id =
      some (if (1 : ℚ) / 10 < ratAbs x then .Walk else .Stand) ∧
    (step s (.playerState id x y true)).otherPos id = some (x, y) ∧
    (step s (.playerState id x y true)).otherFrame id = some 0 ∧
    (step s (.playerState id x y true)).otherTimer id = some 0 ∧
    (step s (.playerState id x y true)).otherFacing id =
      some (if x < 0 then false else true) := by
  have hnone : (s.otherPos id).isSome = false := by rw [habs]; rfl
  simp only [step, if_neg hid, handleRemoteState, ensureOther, hnone, Bool.false_eq_true,
    if_false, setF_same, Option.getD_some]
  simp only [remoteAfterCreate, setF_same]
  norm_num
  rcases lt_trichotomy x 0 with hx | hx | hx
  · have hx0 : ¬ ((0 : ℚ) < x) := by linarith
    simp only [if_neg hx0, if_pos hx, setF_same]
    split <;> simp_all [setF_same]
  · subst hx
    norm_num [ratAbs, setF_same]
  · have hx0 : ¬ (x < (0 : ℚ)) := by linarith
    simp only [if_pos hx, if_neg hx0, setF_same]
    split <;> simp_all [setF_same]

/-- C3 witness: a first message at x = 100, onGround = true yields Walk (the
threshold is exceeded), the record fields are freshly created, and facing is
right. -/
theorem c3_first_state_witness :
    ((7 : Nat) ≠ initState.myPlayerId ∧ initState.otherPos 7 = none) ∧
    ((step initState (.playerState 7 100 0 true)).otherAnim 7 =
        some (if (1 : ℚ) / 10 < ratAbs 100 then .Walk else .Stand) ∧
      (step initState (.playerState 7 100 0 true)).otherPos 7 = some (100, 0) ∧
      (step initState (.playerState 7 100 0 true)).otherFrame 7 = some 0 ∧
      (step initState (.playerState 7 100 0 true)).otherTimer 7 = some 0 ∧
      (step initState (.playerState 7 100 0 true)).otherFacing 7 =
        some (if (100 : ℚ) < 0 then false else true)) :=
  ⟨⟨by decide, rfl⟩, c3_first_state_uses_default_origin initState 7 100 0 (by decide) rfl⟩

/-- Helper: a PlayerState message never changes the local player id. -/
lemma step_playerState_myPlayerId (s : ClientState) (i : Nat) (x y : ℚ) (g : Bool) :
    (step s (.playerState i x y g)).myPlayerId = s.myPlayerId := by
  by_cases h : i = s.myPlayerId
  · simp [step, h]
  · simp [step, h, (handleRemoteState_scalars s i x y g).1]

/-- Helper: a PlayerState message for another id never moves the local
sprite. -/
lemma step_playerState_remote_playerPos (s : ClientState) (i : Nat) (x y : ℚ) (g : Bool)
    (h : i ≠ s.myPlayerId) :
    (step s (.playerState i x y g)).playerPos = s.playerPos := by
  simp [step, h, (handleRemoteState_scalars s i x y g).2.2.1]

/-- Helper: PlayerState sequences preserve the local player id. -/
lemma processAll_stateMsgs_myPlayerId (msgs : List (Nat × ℚ × ℚ × Bool))
    (s : ClientState) :
    (processAll s (msgs.map toStateMsg)).myPlayerId = s.myPlayerId := by
  induction msgs generalizing s with
  | nil => rfl
  | cons m rest ih =>
    simp only [List.map_cons, processAll, List.foldl_cons]
    rw [show (List.foldl step (step s (toStateMsg m)) (rest.map toStateMsg)) =
      processAll (step s (toStateMsg m)) (rest.map toStateMsg) from rfl, ih]
    exact step_playerState_myPlayerId s m.1 m.2.1 m.2.2.1 m.2.2.2

/-- C5: for every sequence of valid PlayerState messages containing at least
one message for the local player's id, the local entity's rendered position
after the dispatcher processes the sequence equals the (x, y) of the LAST
such message — the position is applied verbatim, with no interpolation. -/
theorem c5_local_position_is_last_echo (s : ClientState)
    (msgs : List (Nat × ℚ × ℚ × Bool)) (last : Nat × ℚ × ℚ × Bool)
    (hlast : (msgs.filter fun m => m.1 == s.myPlayerId).getLast? = some last) :
    (processAll s (msgs.map toStateMsg)).playerPos = (last.2.1, last.2.2.1) := by
  induction msgs using List.reverseRecOn generalizing last with
  | nil => simp at hlast
  | append_singleton ms m ih =>
    rw [List.filter_append] at hlast
    by_cases hm : m.1 == s.myPlayerId
    · rw [show List.filter (fun m => m.1 == s.myPlayerId) [m] = [m] by simp [hm],
        List.getLast?_concat] at hlast
      have hml : m = last := by injection hlast
      rw [← hml]
      rw [List.map_append, List.map_singleton, processAll, List.foldl_append,
        List.foldl_cons, List.foldl_nil]
      have hmy : (List.foldl step s (ms.map toStateMsg)).myPlayerId = s.myPlayerId :=
        processAll_stateMsgs_myPlayerId ms s
      have hid : m.1 = (List.foldl step s (ms.map toStateMsg)).myPlayerId := by
        rw [hmy]; exact beq_iff_eq.mp hm
      simp [toStateMsg, step, hid]
    · rw [show List.filter (fun m => m.1 == s.myPlayerId) [m] = [] by simp [hm],
        List.append_nil] at hlast
      rw [List.map_append, List.map_singleton, processAll, List.foldl_append,
        List.foldl_cons, List.foldl_nil]
      have hmy : (List.foldl step s (ms.map toStateMsg)).myPlayerId = s.myPlayerId :=
        processAll_stateMsgs_myPlayerId ms s
      have hne : m.1 ≠ (List.foldl step s (ms.map toStateMsg)).myPlayerId := by
        rw [hmy]
        intro hc
        exact hm (by simp [hc])
      rw [show step (List.foldl step s (ms.map toStateMsg)) (toStateMsg m) =
        step (List.foldl step s (ms.map toStateMsg))
          (.playerState m.1 m.2.1 m.2.2.1 m.2.2.2) from rfl]
      rw [step_playerState_remote_playerPos _ _ _ _ _ hne]
      exact ih last hlast

/-- C5 witness: on a fresh session (local id 0) the sequence with local
echoes (0, 3, 4) and (0, 8, 9) around a remote message ends with the local
sprite at (8, 9). -/
theorem c5_local_position_witness :
    (([((0 : Nat), (3 : ℚ), (4 : ℚ), true), (7, 1, 1, true),
        (0, 8, 9, false)].filter fun m => m.1 == initState.myPlayerId).getLast? =
      some (0, 8, 9, false)) ∧
    (processAll initState
        ([((0 : Nat), (3 : ℚ), (4 : ℚ), true), (7, 1, 1, true),
          (0, 8, 9, false)].map toStateMsg)).playerPos = ((8 : ℚ), (9 : ℚ)) :=
  ⟨rfl, c5_local_position_is_last_echo initState
    [((0 : Nat), (3 : ℚ), (4 : ℚ), true), (7, 1, 1, true), (0, 8, 9, false)]
    (0, 8, 9, false) rfl⟩

/-- C9: the dispatcher filters by identity equality before delegating to the
registry: any id present in the registry after a message was either already
present or differs from the local player's id at that point, a PlayerState
echoing the local id updates only the local ground flag and sprite position,
and PlayerJoined/PlayerLeft carrying the local id leave the whole state
untouched. -/
theorem c9_local_id_never_inserted (s : ClientState) :
    (∀ (m : Msg) (id : Nat), ((step s m).otherPos id).isSome = true →
      (s.otherPos id).isSome = true ∨ id ≠ (step s m).myPlayerId) ∧
    (∀ (x y : ℚ) (g : Bool), step s (.playerState s.myPlayerId x y g) =
      { s with myIsOnGround := g, playerPos := (x, y) }) ∧
    (∀ (x y : ℚ) (g : Bool), step s (.playerJoined s.myPlayerId x y g) = s) ∧
    step s (.playerLeft s.myPlayerId) = s := by
  refine ⟨fun m id h => ?_, fun x y g => by simp [step], fun x y g => by simp [step],
    by simp [step]⟩
  cases m with
  | welcome i => exact Or.inl h
  | mapData fields => exact Or.inl h
  | playerState i x y g =>
    by_cases hi : i = s.myPlayerId
    · simp only [step, if_pos hi] at h
      exact Or.inl h
    · by_cases hj : id = i
      · subst hj
        refine Or.inr ?_
        have hmy : (step s (.playerState id x y g)).myPlayerId = s.myPlayerId :=
          step_playerState_myPlayerId s id x y g
        rw [hmy]
        exact hi
      · refine Or.inl ?_
        simp only [step, if_neg hi] at h
        rw [(handleRemoteState_ne s i id x y g hj).1] at h
        exact h
  | playerJoined i x y g =>
    by_cases hc : i ≠ s.myPlayerId ∧ (s.otherPos i).isSome = false
    · by_cases hj : id = i
      · subst hj
        refine Or.inr ?_
        simp only [step, if_pos hc]
        exact hc.1
      · refine Or.inl ?_
        simp only [step, if_pos hc, setF_other _ _ _ _ hj] at h
        exact h
    · simp only [step, if_neg hc] at h
      exact Or.inl h
  | playerLeft i =>
    by_cases hc : i ≠ s.myPlayerId ∧ (s.otherPos i).isSome = true
    · by_cases hj : id = i
      · subst hj
        simp only [step, if_pos hc, setF_same] at h
        exact absurd h (by simp)
      · refine Or.inl ?_
        simp only [step, if_pos hc, setF_other _ _ _ _ hj] at h
        exact h
    · simp only [step, if_neg hc] at h
      exact Or.inl h

/-- C9 witness: the conjunction instantiated on a session whose registry
already holds id 7. -/
theorem c9_local_id_never_inserted_witness :
    (∀ (m : Msg) (id : Nat),
      ((step (step initState (.playerJoined 7 1 2 true)) m).otherPos id).isSome = true →
      ((step initState (.playerJoined 7 1 2 true)).otherPos id).isSome = true ∨
        id ≠ (step (step initState (.playerJoined 7 1 2 true)) m).myPlayerId) ∧
    (∀ (x y : ℚ) (g : Bool),
      step (step initState (.playerJoined 7 1 2 true))
          (.playerState (step initState (.playerJoined 7 1 2 true)).myPlayerId x y g) =
        { step initState (.playerJoined 7 1 2 true) with
          myIsOnGround := g, playerPos := (x, y) }) ∧
    (∀ (x y : ℚ) (g : Bool),
      step (step initState (.playerJoined 7 1 2 true))
          (.playerJoined (step initState (.playerJoined 7 1 2 true)).myPlayerId x y g) =
        step initState (.playerJoined 7 1 2 true)) ∧
    step (step initState (.playerJoined 7 1 2 true))
        (.playerLeft (step initState (.playerJoined 7 1 2 true)).myPlayerId) =
      step initState (.playerJoined 7 1 2 true) :=
  c9_local_id_never_inserted (step initState (.playerJoined 7 1 2 true))

/-- Helper: the update half of the remote PlayerState branch leaves the
updated id present in all five parallel maps, given that the frame, timer
and facing entries for it existed beforehand. -/
lemma remoteAfterCreate_isSome_at (s : ClientState) (id : Nat) (x y : ℚ) (g : Bool)
    (px : ℚ) (hfr : (s.otherFrame id).isSome = true)
    (hti : (s.otherTimer id).isSome = true)
    (hfc : (s.otherFacing id).isSome = true) :
    ((remoteAfterCreate s id x y g px).otherPos id).isSome = true ∧
    ((remoteAfterCreate s id x y g px).otherAnim id).isSome = true ∧
    ((remoteAfterCreate s id x y g px).otherFrame id).isSome = true ∧
    ((remoteAfterCreate s id x y g px).otherTimer id).isSome = true ∧
    ((remoteAfterCreate s id x y g px).otherFacing id).isSome = true := by
  simp only [remoteAfterCreate]
  split_ifs <;> simp_all [setF_same]

/-- Helper: after the remote PlayerState branch the updated id is present in
all five parallel maps, provided the maps were aligned before. -/
lemma handleRemoteState_isSome_at (s : ClientState) (id : Nat) (x y : ℚ) (g : Bool)
    (h : RegAligned s) :
    ((handleRemoteState s id x y g).otherPos id).isSome = true ∧
    ((handleRemoteState s id x y g).otherAnim id).isSome = true ∧
    ((handleRemoteState s id x y g).otherFrame id).isSome = true ∧
    ((handleRemoteState s id x y g).otherTimer id).isSome = true ∧
    ((handleRemoteState s id x y g).otherFacing id).isSome = true := by
  obtain ⟨ha, hf, ht, hfc⟩ := h id
  by_cases hp : (s.otherPos id).isSome = true
  · have hens : ensureOther s id = s := by simp [ensureOther, hp]
    simp only [handleRemoteState, hens]
    exact remoteAfterCreate_isSome_at s id x y g _ (by rw [← hf, hp]) (by rw [← ht, hp])
      (by rw [← hfc, hp])
  · have hens : ensureOther s id =
        { s with
          otherPos := setF s.otherPos id (some ((0 : ℚ), (0 : ℚ)))
          otherAnim := setF s.otherAnim id (some .Stand)
          otherFrame := setF s.otherFrame id (some 0)
          otherTimer := setF s.otherTimer id (some 0)
          otherFacing := setF s.otherFacing id (some true) } := by
      simp [ensureOther, hp]
    simp only [handleRemoteState, hens]
    exact remoteAfterCreate_isSome_at _ id x y g _ (by simp [setF_same]) (by simp [setF_same])
      (by simp [setF_same])

/-- Helper: every single dispatcher step preserves the alignment of the five
parallel registry maps. -/
lemma step_aligned (s : ClientState) (m : Msg) (h : RegAligned s) :
    RegAligned (step s m) := by
  cases m with
  | welcome i => exact h
  | mapData fields => exact h
  | playerState i x y g =>
    by_cases hi : i = s.myPlayerId
    · simp only [step, if_pos hi]
      exact h
    · intro id
      by_cases hj : id = i
      · subst hj
        have h5 := handleRemoteState_isSome_at s id x y g h
        simp only [step, if_neg hi, h5.1, h5.2.1, h5.2.2.1, h5.2.2.2.1, h5.2.2.2.2]
        exact ⟨trivial, trivial, trivial, trivial⟩
      · have h5 := handleRemoteState_ne s i id x y g hj
        simp only [step, if_neg hi, h5.1, h5.2.1, h5.2.2.1, h5.2.2.2.1, h5.2.2.2.2]
        exact h id
  | playerJoined i x y g =>
    by_cases hc : i ≠ s.myPlayerId ∧ (s.otherPos i).isSome = false
    · intro id
      by_cases hj : id = i
      · subst hj
        simp only [step, if_pos hc, setF_same]
        exact ⟨rfl, rfl, rfl, rfl⟩
      · simp only [step, if_pos hc, setF_other _ _ _ _ hj]
        exact h id
    · simp only [step, if_neg hc]
      exact h
  | playerLeft i =>
    by_cases hc : i ≠ s.myPlayerId ∧ (s.otherPos i).isSome = true
    · intro id
      by_cases hj : id = i
      · subst hj
        simp only [step, if_pos hc, setF_same]
        exact ⟨rfl, rfl, rfl, rfl⟩
      · simp only [step, if_pos hc, setF_other _ _ _ _ hj]
        exact h id
    · simp only [step, if_neg hc]
      exact h

/-- C10: all five parallel per-remote-entity maps keep exactly the same key
set across any sequence of inbound messages — every creation inserts into
all five and every removal erases from all five, so no entity is ever
partially present. -/
theorem c10_parallel_maps_same_keys (msgs : List Msg) (s : ClientState)
    (h : RegAligned s) : RegAligned (processAll s msgs) := by
  induction msgs generalizing s with
  | nil => exact h
  | cons m rest ih => exact ih (step s m) (step_aligned s m h)

/-- C10 witness: alignment holds on a fresh session and after a concrete
join/update/leave sequence. -/
theorem c10_parallel_maps_same_keys_witness :
    RegAligned initState ∧
    RegAligned (processAll initState
      [.playerJoined 7 1 2 true, .playerState 7 6 2 true, .playerState 3 1 1 false,
        .playerLeft 7]) :=
  ⟨fun id => by simp [initState],
    c10_parallel_maps_same_keys
      [.playerJoined 7 1 2 true, .playerState 7 6 2 true, .playerState 3 1 1 false,
        .playerLeft 7]
      initState (fun id => by simp [initState])⟩

/-- Helper: a 32-bit big-endian encoding decodes back to its value. -/
lemma readU32_u32be (n : Nat) (rest : List Nat) (h : n < 2 ^ 32) :
    readU32 (u32be n ++ rest) = some (n, rest) := by
  have key : (((n / 16777216 % 256) * 256 + n / 65536 % 256) * 256 + n / 256 % 256) * 256 +
      n % 256 = n := by omega
  simp only [u32be, List.cons_append, List.nil_append, readU32, key]

/-- Helper: a raw 4-byte float pattern decodes back to its bits. -/
lemma readF32_f32bytes (n : Nat) (rest : List Nat) (h : n < 2 ^ 32) :
    readF32 (f32bytes n ++ rest) = some (n, rest) := by
  have key : n % 256 + 256 * (n / 256 % 256 + 256 * (n / 65536 % 256 +
      256 * (n / 16777216 % 256))) = n := by omega
  simp only [f32bytes, List.cons_append, List.nil_append, readF32, key]

/-- Helper: a bool byte decodes back to its value. -/
lemma readBool_boolByte (b : Bool) (rest : List Nat) :
    readBool (boolByte b ++ rest) = some (b, rest) := by
  cases b <;> rfl

/-- Helper: a run of encoded tiles decodes back to the original list. -/
lemma readTiles_encode (tiles : List Nat) (rest : List Nat)
    (h : ∀ t ∈ tiles, t < 2 ^ 32) :
    readTiles tiles.length (tiles.flatMap u32be ++ rest) = some (tiles, rest) := by
  induction tiles with
  | nil => rfl
  | cons t ts ih =>
    simp only [List.length_cons, List.flatMap_cons, List.append_assoc]
    rw [readTiles, readU32_u32be t _ (h t (by simp)), Option.some_bind,
      ih (fun a ha => h a (by simp [ha])), Option.some_bind]

/-- Helper: the MapData tile block for in-int-range dimensions decodes back
to the encoded tile list. -/
lemma readTilesDims_encode (w h : Nat) (tiles rest : List Nat)
    (h1 : w < 2 ^ 31) (h2 : h < 2 ^ 31) (h3 : tiles.length = w * h)
    (h4 : ∀ t ∈ tiles, t < 2 ^ 32) :
    readTilesDims w h (tiles.flatMap u32be ++ rest) = some (tiles, rest) := by
  have hwc : int32ofU32 (w : Int) = (w : Int) := by
    simp only [int32ofU32]
    rw [if_pos (by exact_mod_cast h1)]
  have hhc : int32ofU32 (h : Int) = (h : Int) := by
    simp only [int32ofU32]
    rw [if_pos (by exact_mod_cast h2)]
  rw [readTilesDims, hwc, hhc, Int.toNat_natCast, Int.toNat_natCast,
    show h * w = tiles.length by rw [h3, Nat.mul_comm]]
  exact readTiles_encode tiles rest h4

/-- Helper: decoding an encoded well-formed message returns that message and
consumes every byte. -/
lemma decodeWire_encodeWire (m : WireMsg) (hwf : WFwire m) :
    decodeWire (encodeWire m) = some (m, []) := by
  cases m with
  | welcome id =>
    have h1 : id < 2 ^ 32 := hwf
    have he : encodeWire (.welcome id) = 0 :: (u32be id ++ []) := by simp [encodeWire]
    rw [he, decodeWire, readU32_u32be id [] h1, Option.some_bind]
  | playerState id x y g =>
    obtain ⟨h1, h2, h3⟩ := hwf
    have he : encodeWire (.playerState id x y g) =
        1 :: (u32be id ++ (f32bytes x ++ (f32bytes y ++ (boolByte g ++ [])))) := by
      simp [encodeWire]
    rw [he, decodeWire]
    rw [readU32_u32be id _ h1, Option.some_bind]
    rw [readF32_f32bytes x _ h2, Option.some_bind]
    rw [readF32_f32bytes y _ h3, Option.some_bind]
    rw [readBool_boolByte g [], Option.some_bind]
  | playerInput u d l r j =>
    have he : encodeWire (.playerInput u d l r j) =
        2 :: (boolByte u ++ (boolByte d ++ (boolByte l ++ (boolByte r ++
          (boolByte j ++ []))))) := by
      simp [encodeWire]
    rw [he, decodeWire]
    rw [readBool_boolByte u _, Option.some_bind]
    rw [readBool_boolByte d _, Option.some_bind]
    rw [readBool_boolByte l _, Option.some_bind]
    rw [readBool_boolByte r _, Option.some_bind]
    rw [readBool_boolByte j [], Option.some_bind]
  | playerJoined id x y g =>
    obtain ⟨h1, h2, h3⟩ := hwf
    have he : encodeWire (.playerJoined id x y g) =
        3 :: (u32be id ++ (f32bytes x ++ (f32bytes y ++ (boolByte g ++ [])))) := by
      simp [encodeWire]
    rw [he, decodeWire]
    rw [readU32_u32be id _ h1, Option.some_bind]
    rw [readF32_f32bytes x _ h2, Option.some_bind]
    rw [readF32_f32bytes y _ h3, Option.some_bind]
    rw [readBool_boolByte g [], Option.some_bind]
  | playerLeft id =>
    have h1 : id < 2 ^ 32 := hwf
    have he : encodeWire (.playerLeft id) = 4 :: (u32be id ++ []) := by simp [encodeWire]
    rw [he, decodeWire, readU32_u32be id [] h1, Option.some_bind]
  | mapData w h tiles =>
    obtain ⟨h1, h2, h3, h4⟩ := hwf
    have hw32 : w < 2 ^ 32 := by omega
    have hh32 : h < 2 ^ 32 := by omega
    have he : encodeWire (.mapData w h tiles) =
        5 :: (u32be w ++ (u32be h ++ (tiles.flatMap u32be ++ []))) := by
      simp [encodeWire]
    rw [he, decodeWire]
    rw [readU32_u32be w _ hw32, Option.some_bind]
    rw [readU32_u32be h _ hh32, Option.some_bind]
    rw [readTilesDims_encode w h tiles [] h1 h2 h3 h4, Option.some_bind]

/-- C8: for every well-formed encoded message of each of the six packet
tags, decoding the byte sequence and re-encoding the decoded value yields
the original byte sequence. -/
theorem c8_wire_roundtrip (bytes : List Nat)
    (h : ∃ m, WFwire m ∧ encodeWire m = bytes) :
    ∃ m2, decodeWire bytes = some (m2, []) ∧ encodeWire m2 = bytes := by
  obtain ⟨m, hwf, henc⟩ := h
  exact ⟨m, by rw [← henc, decodeWire_encodeWire m hwf], henc⟩

/-- C8 witness: the Welcome message for id 7 encodes to five concrete bytes
that decode and re-encode to themselves. -/
theorem c8_wire_roundtrip_witness :
    (∃ m, WFwire m ∧ encodeWire m = [0, 0, 0, 0, 7]) ∧
    (∃ m2, decodeWire [0, 0, 0, 0, 7] = some (m2, []) ∧
      encodeWire m2 = [0, 0, 0, 0, 7]) :=
  ⟨⟨.welcome 7, by norm_num [WFwire], by decide⟩,
    c8_wire_roundtrip [0, 0, 0, 0, 7] ⟨.welcome 7, by norm_num [WFwire], by decide⟩⟩

/-- C1 (counterexample): with the Walk descriptor (frameCount = 8,
timePerFrame = 0.1 s = 100000 µs), injecting 0.35 s in a single update
advances the frame index by exactly 1 with 0.25 s retained — not by 3 with
0.05 s retained as the claim states — and the result differs from injecting
the same 0.35 s as four smaller increments, refuting the claimed
injection-strategy independence. -/
theorem c1_while_advance_counterexample :
    frameUpdate (animData .Walk) (0, 0) 350000 = (250000, 1) ∧
    frameUpdate (animData .Walk) (0, 0) 350000 ≠ (50000, 3) ∧
    List.foldl (frameUpdate (animData .Walk)) (0, 0) [100000, 100000, 100000, 50000] =
      (50000, 3) ∧
    frameUpdate (animData .Walk) (0, 0) 350000 ≠
      List.foldl (frameUpdate (animData .Walk)) (0, 0) [100000, 100000, 100000, 50000] := by
  decide

/-- C1 (amended): the per-frame advance accumulates the elapsed time into
the frame timer and then advances AT MOST ONE frame per update: either the
timer is below the descriptor's timePerFrame and only accumulates, or that
duration is subtracted once and the frame index advances once modulo
frameCount.  With frameCount = 8 and timePerFrame = 0.1 s, injecting 0.35 s
in one update advances the frame by exactly 1 with 0.25 s retained, while
injecting it as 0.1+0.1+0.1+0.05 s advances it by 3 with 0.05 s retained, so
the two injection strategies are not equivalent. -/
theorem c1_single_step_advance :
    (∀ (d : AnimationData) (st : Int × Nat) (dt : Int),
      ((frameUpdate d st dt).2 = st.2 ∧ (frameUpdate d st dt).1 = st.1 + dt) ∨
      ((frameUpdate d st dt).2 = (st.2 + 1) % d.frameCount ∧
        (frameUpdate d st dt).1 + d.timePerFrame = st.1 + dt ∧
        d.timePerFrame ≤ st.1 + dt)) ∧
    frameUpdate (animData .Walk) (0, 0) 350000 = (250000, 1) ∧
    List.foldl (frameUpdate (animData .Walk)) (0, 0) [100000, 100000, 100000, 50000] =
      (50000, 3) := by
  refine ⟨fun d st dt => ?_, by decide, by decide⟩
  unfold frameUpdate advanceOnce
  by_cases h : d.timePerFrame ≤ st.1 + dt
  · exact Or.inr (by simp [h]; try omega)
  · exact Or.inl (by simp [h])

/-- C6: if the local state is Stand, the cooldown has expired and the ground
flag is false on two consecutive frames, the first frame's pipeline changes
the state to Jump, resets the frame index and frame timer to zero and
restarts the 0.1 s (100000 µs) cooldown; on the second frame the transition
block is the identity — no further state change and no frame/timer reset. -/
theorem c6_stand_to_jump_fires_once (s : LocalAnim) (dt1 dt2 : Int) (l1 r1 l2 r2 : Bool)
    (hstand : s.currentAnimState = .Stand) (hcool : s.stateChangeCooldownTimer ≤ 0) :
    (localFrame dt1 false l1 r1 s).currentAnimState = .Jump ∧
    (localFrame dt1 false l1 r1 s).currentFrame = 0 ∧
    (localFrame dt1 false l1 r1 s).animTimer = 0 ∧
    (localFrame dt1 false l1 r1 s).stateChangeCooldownTimer = 100000 ∧
    localTransition false l2 r2 (tickTimers dt2 (localFrame dt1 false l1 r1 s)) =
      tickTimers dt2 (localFrame dt1 false l1 r1 s) := by
  have hnot : ¬ (0 < s.stateChangeCooldownTimer) := by omega
  have h1 : localFrame dt1 false l1 r1 s =
      { currentAnimState := .Jump, currentFrame := 0, animTimer := 0,
        stateChangeCooldownTimer := 100000 } := by
    simp [localFrame, tickTimers, localTransition, localTarget, localAdvance, advanceOnce,
      animData, hstand, hnot, hcool]
  rw [h1]
  refine ⟨rfl, rfl, rfl, rfl, ?_⟩
  simp [tickTimers, localTransition, localTarget]

/-- Helper: the tile loop reports success exactly when there are at least as
many decoded fields as cells to visit. -/
lemma mapContentLoop_ok (coords : List (Nat × Nat)) (fields : List Int)
    (tm : List (List Int)) (shapes : List (Nat × Nat)) :
    (mapContentLoop coords fields tm shapes).2.2 =
      decide (coords.length ≤ fields.length) := by
  induction coords generalizing fields tm shapes with
  | nil => simp [mapContentLoop]
  | cons c rest ih =>
    obtain ⟨y, x⟩ := c
    cases fields with
    | nil => simp [mapContentLoop]
    | cons v fs =>
      simp only [mapContentLoop, ih, List.length_cons, Nat.add_le_add_iff_right]

/-- Helper: the tile loop visits exactly `h * w` cells. -/
lemma cellCoords_length (h w : Nat) : (cellCoords h w).length = h * w := by
  induction h with
  | zero => simp [cellCoords]
  | succ n ih =>
    simp only [cellCoords, List.range_succ, List.flatMap_append] at *
    simp_all [Nat.succ_mul]

/-- C2 (counterexample): a MapData message whose content decodes the
dimensions 2×2 but none of the four tile codes does NOT leave the previously
loaded map untouched — the solid-tile shapes are cleared and the stored
dimensions change — and the load is not marked failed: `mapLoaded` stays
true from the earlier successful load. -/
theorem c2_partial_mapdata_counterexample :
    (mapDataStep [2, 2] mapBefore).mapShapes = [] ∧
    mapBefore.mapShapes = [(0, 0)] ∧
    (mapDataStep [2, 2] mapBefore).clientMapWidth = 2 ∧
    mapBefore.clientMapWidth = 1 ∧
    (mapDataStep [2, 2] mapBefore).clientMapHeight = 2 ∧
    (mapDataStep [2, 2] mapBefore).mapLoaded = true := by
  decide

/-- C2 (amended): a MapData message that fails before both dimension fields
decode leaves the map state entirely unchanged.  A message whose dimensions
decode but whose tile content is short (fewer fields than width × height)
still overwrites the stored dimensions, discards the previous solid-tile
shapes (the resulting shape list is independent of the prior one), and
leaves `mapLoaded` at its previous value instead of marking the load as
failed; only complete content sets `mapLoaded`. -/
theorem c2_short_mapdata_clobbers_previous_map :
    (∀ (s : MapState) (fields : List Int), fields.length < 2 → mapDataStep fields s = s) ∧
    (∀ (s : MapState) (w h : Int) (rest : List Int),
      rest.length < (int32ofU32 h).toNat * (int32ofU32 w).toNat →
      (mapDataStep (w :: h :: rest) s).mapLoaded = s.mapLoaded ∧
      (mapDataStep (w :: h :: rest) s).clientMapWidth = int32ofU32 w ∧
      (mapDataStep (w :: h :: rest) s).clientMapHeight = int32ofU32 h) ∧
    (∀ (s : MapState) (w h : Int) (rest : List Int),
      (int32ofU32 h).toNat * (int32ofU32 w).toNat ≤ rest.length →
      (mapDataStep (w :: h :: rest) s).mapLoaded = true) ∧
    (∀ (s : MapState) (sh : List (Nat × Nat)) (w h : Int) (rest : List Int),
      (mapDataStep (w :: h :: rest) { s with mapShapes := sh }).mapShapes =
        (mapDataStep (w :: h :: rest) s).mapShapes) := by
  refine ⟨fun s fields hlen => ?_, fun s w h rest hshort => ?_, fun s w h rest hfull => ?_,
    fun s sh w h rest => ?_⟩
  · match fields with
    | [] => rfl
    | [a] => rfl
    | a :: b :: t => simp at hlen; omega
  · have hok := mapContentLoop_ok (cellCoords (int32ofU32 h).toNat (int32ofU32 w).toNat)
      rest (resizeRows s.clientTileMap (int32ofU32 h).toNat (int32ofU32 w).toNat) []
    rw [cellCoords_length] at hok
    have : (mapContentLoop (cellCoords (int32ofU32 h).toNat (int32ofU32 w).toNat) rest
        (resizeRows s.clientTileMap (int32ofU32 h).toNat (int32ofU32 w).toNat) []).2.2 =
        false := by rw [hok]; simpa using by omega
    simp [mapDataStep, this]
  · have hok := mapContentLoop_ok (cellCoords (int32ofU32 h).toNat (int32ofU32 w).toNat)
      rest (resizeRows s.clientTileMap (int32ofU32 h).toNat (int32ofU32 w).toNat) []
    rw [cellCoords_length] at hok
    have : (mapContentLoop (cellCoords (int32ofU32 h).toNat (int32ofU32 w).toNat) rest
        (resizeRows s.clientTileMap (int32ofU32 h).toNat (int32ofU32 w).toNat) []).2.2 =
        true := by rw [hok]; simpa using hfull
    simp [mapDataStep, this]
  · simp [mapDataStep]

/-- C2 witness: the amended statement evaluated at the concrete map above —
a one-field packet is ignored, the short 2×2 packet keeps `mapLoaded`, and a
complete 1×1 packet loads. -/
theorem c2_short_mapdata_witness :
    (([5] : List Int).length < 2 ∧ mapDataStep [5] mapBefore = mapBefore) ∧
    (([] : List Int).length < (int32ofU32 2).toNat * (int32ofU32 2).toNat ∧
      (mapDataStep [2, 2] mapBefore).mapLoaded = mapBefore.mapLoaded) ∧
    ((int32ofU32 1).toNat * (int32ofU32 1).toNat ≤ ([7] : List Int).length ∧
      (mapDataStep [1, 1, 7] mapBefore).mapLoaded = true) :=
  ⟨⟨by decide, c2_short_mapdata_clobbers_previous_map.1 mapBefore [5] (by decide)⟩,
    ⟨by decide, (c2_short_mapdata_clobbers_previous_map.2.1 mapBefore 2 2 [] (by decide)).1⟩,
    ⟨by decide, c2_short_mapdata_clobbers_previous_map.2.2.1 mapBefore 1 1 [7] (by decide)⟩⟩

/-- C6 witness: concrete two-frame run at 60 fps timing from Stand with an
expired cooldown. -/
theorem c6_stand_to_jump_fires_once_witness :
    ((⟨.Stand, 0, 5000, 0⟩ : LocalAnim).currentAnimState = .Stand ∧
      (⟨.Stand, 0, 5000, 0⟩ : LocalAnim).stateChangeCooldownTimer ≤ 0) ∧
    ((localFrame 16667 false false false ⟨.Stand, 0, 5000, 0⟩).currentAnimState = .Jump ∧
      (localFrame 16667 false false false ⟨.Stand, 0, 5000, 0⟩).currentFrame = 0 ∧
      (localFrame 16667 false false false ⟨.Stand, 0, 5000, 0⟩).animTimer = 0 ∧
      (localFrame 16667 false false false ⟨.Stand, 0, 5000, 0⟩).stateChangeCooldownTimer =
        100000 ∧
      localTransition false false false
          (tickTimers 16667 (localFrame 16667 false false false ⟨.Stand, 0, 5000, 0⟩)) =
        tickTimers 16667 (localFrame 16667 false false false ⟨.Stand, 0, 5000, 0⟩)) :=
  ⟨⟨rfl, by decide⟩,
    c6_stand_to_jump_fires_once ⟨.Stand, 0, 5000, 0⟩ 16667 16667 false false false false rfl
      (by decide)⟩

end Platform2D
